import Mathlib

/-!
Verification development for the rlox tree-walking interpreter.

This file shallowly embeds the core of the interpreter — the AST, the
resolver, the environment model and the evaluator — translated from the
Rust sources (src/resolver.rs, src/interpreter.rs, src/types.rs,
src/expressions.rs, src/statements.rs, src/main.rs), and proves or refutes
the specification claims about them.

Modelling conventions:

* Rust `f64` numbers are modelled by `Int`.  No claim settled here
  exercises floating-point rounding, NaN, signed zero or true division；
  arithmetic on the integer-valued test programs is exact either way.
* `Rc<RefCell<Environment>>` sharing is modelled by a store: a list of
  environments addressed by allocation index.  The globals environment is
  at index 0 and every child environment records its parent's index, so a
  parent index is always strictly smaller than the child's own index.
* `Token.lexeme` is `Option<String>` in Rust and is unwrapped at every
  identifier use; the embedding carries the lexeme directly.
* A Rust panic (a failed `unwrap`, an out-of-bounds index, an
  `unreachable!` arm) is modelled by the outcome `crash`; `oof`
  ("out of fuel") is an artifact of the fuel-indexed recursion and is not a
  behaviour of the program.
* The expression structs in src/expressions.rs carry no `id` field and no
  `Get` variant, yet src/resolver.rs and src/interpreter.rs index the
  side table by `expr.get_id()` and visit `Expr::Get`; those parts of the
  AST are modelled from the spec (every expression carries a stable unique
  integer id; `Get{id, object, name_token}`).  The `Set`/`This` expressions
  and the class-declaration statement are not embedded: no claim settled
  below depends on executing them, and the code they would need
  (`LoxClass::find_method`, `Function::bind`, the `is_init` field) does not
  exist in src/types.rs.
-/

namespace Rlox

/-- Token kinds, restricted to the constructors the resolver and evaluator
inspect (src/scanner.rs `TokenType`). -/
inductive TokenType where
  | MINUS | PLUS | STAR | SLASH
  | BANG | BANGEQUAL | EQUALEQUAL
  | GREATER | GREATEREQUAL | LESS | LESSEQUAL
  | AND | OR
  | IDENTIFIER | RETURN | RIGHTPAREN
  deriving DecidableEq, Repr

/-- A scanner token (src/scanner.rs 79-84), with the lexeme carried
directly (the token literal is only read by the parser, which is outside
this embedding). -/
structure Token where
  tokenType : TokenType
  line : Nat
  lexeme : String
  deriving DecidableEq, Repr

/-- The literal payload of a `Literal` expression (the scanner `Object`:
number, string, boolean or nil). -/
inductive LitVal where
  | num (n : Int)
  | str (s : String)
  | bool (b : Bool)
  | nil
  deriving DecidableEq, Repr

/-- Expression AST (src/expressions.rs), with the per-expression `id`.
Modelled from the spec: src/expressions.rs lacks the `id` field and the
`Get` variant that `Resolver::resolve_local` and
`Interpreter::lookup_variable` key their side table with; the spec states
that every expression carries a unique integer id assigned at parse
time. -/
inductive Expr where
  | literal (id : Nat) (value : LitVal)
  | binary (id : Nat) (left : Expr) (op : Token) (right : Expr)
  | unary (id : Nat) (op : Token) (right : Expr)
  | grouping (id : Nat) (inner : Expr)
  | var (id : Nat) (name : Token)
  | assign (id : Nat) (name : Token) (value : Expr)
  | logical (id : Nat) (left : Expr) (op : Token) (right : Expr)
  | call (id : Nat) (calle : Expr) (paren : Token) (args : List Expr)
  | get (id : Nat) (obj : Expr) (name : Token)
  deriving Repr

/-- Embeds `Expr::get_id`. -/
def Expr.getId : Expr → Nat
  | .literal i _ => i
  | .binary i _ _ _ => i
  | .unary i _ _ => i
  | .grouping i _ => i
  | .var i _ => i
  | .assign i _ _ => i
  | .logical i _ _ _ => i
  | .call i _ _ _ => i
  | .get i _ _ => i

/-- Statement AST (src/statements.rs).  The class-declaration statement is
omitted (see the header note). -/
inductive Stmt where
  | exprStmt (e : Expr)
  | varDecl (name : Token) (initOpt : Option Expr)
  | block (stmts : List Stmt)
  | ifS (cond : Expr) (thenB : Stmt) (elseB : Option Stmt)
  | whileS (cond : Expr) (body : Stmt)
  | func (name : Token) (params : List Token) (body : List Stmt)
  | ret (keyword : Token) (value : Option Expr)
  deriving Repr

/- Structural equality on expressions (the derived `PartialEq` of
src/expressions.rs), written by hand because of the nested lists. -/
mutual
def exprBeq : Expr → Expr → Bool
  | .literal i v, .literal j w => i == j && v == w
  | .binary i l p r, .binary j l2 p2 r2 =>
      i == j && exprBeq l l2 && p == p2 && exprBeq r r2
  | .unary i p r, .unary j p2 r2 => i == j && p == p2 && exprBeq r r2
  | .grouping i e, .grouping j e2 => i == j && exprBeq e e2
  | .var i n, .var j n2 => i == j && n == n2
  | .assign i n v, .assign j n2 v2 => i == j && n == n2 && exprBeq v v2
  | .logical i l p r, .logical j l2 p2 r2 =>
      i == j && exprBeq l l2 && p == p2 && exprBeq r r2
  | .call i c p a, .call j c2 p2 a2 =>
      i == j && exprBeq c c2 && p == p2 && exprListBeq a a2
  | .get i o n, .get j o2 n2 => i == j && exprBeq o o2 && n == n2
  | _, _ => false

def exprListBeq : List Expr → List Expr → Bool
  | [], [] => true
  | e :: rest, e2 :: rest2 => exprBeq e e2 && exprListBeq rest rest2
  | _, _ => false
end

/- Structural equality on statements (the derived `PartialEq` of
src/statements.rs). -/
mutual
def optExprBeq : Option Expr → Option Expr → Bool
  | none, none => true
  | some e, some e2 => exprBeq e e2
  | _, _ => false

def stmtBeq : Stmt → Stmt → Bool
  | .exprStmt e, .exprStmt e2 => exprBeq e e2
  | .varDecl n i, .varDecl n2 i2 => n == n2 && optExprBeq i i2
  | .block s, .block s2 => stmtListBeq s s2
  | .ifS c t e, .ifS c2 t2 e2 =>
      exprBeq c c2 && stmtBeq t t2 && optStmtBeq e e2
  | .whileS c b, .whileS c2 b2 => exprBeq c c2 && stmtBeq b b2
  | .func n p b, .func n2 p2 b2 => n == n2 && p == p2 && stmtListBeq b b2
  | .ret k v, .ret k2 v2 => k == k2 && optExprBeq v v2
  | _, _ => false

def optStmtBeq : Option Stmt → Option Stmt → Bool
  | none, none => true
  | some s, some s2 => stmtBeq s s2
  | _, _ => false

def stmtListBeq : List Stmt → List Stmt → Bool
  | [], [] => true
  | s :: rest, s2 :: rest2 => stmtBeq s s2 && stmtListBeq rest rest2
  | _, _ => false
end

/-- Embeds `LoxClass` (src/types.rs 131-140): the class handle of types.rs
carries only the name — there is no method table. -/
structure LoxClass where
  name : String
  deriving DecidableEq, Repr

/-- Embeds `NativeFunc` (src/types.rs 37-42). -/
inductive NativeFunc where
  | INPUT | PRINTLN | PRINT
  deriving DecidableEq, Repr

/-- Embeds `Function` (src/types.rs 9-15): a user function handle with the
captured closure environment, modelled as a store index. -/
structure Function where
  name : String
  body : List Stmt
  params : List Token
  closure : Nat
  deriving Repr

/-- The runtime value `Object` (src/types.rs 142-152).  Instance fields are
carried inline; no claim settled here mutates instance fields through a
shared handle. -/
inductive Obj where
  | num (n : Int)
  | str (s : String)
  | bool (b : Bool)
  | func (f : Function)
  | nativeFn (nf : NativeFunc)
  | classV (c : LoxClass)
  | instV (klass : LoxClass) (fields : List (String × Obj))
  | nil

/-- Embeds `Object::is_truthy` (src/types.rs 155-161). -/
def Obj.isTruthy : Obj → Bool
  | .bool b => b
  | .nil => false
  | _ => true

/-- Association-list lookup, modelling `HashMap::get`. -/
def lookupA {α : Type} : List (String × α) → String → Option α
  | [], _ => none
  | (k2, v) :: rest, k => if k2 = k then some v else lookupA rest k

/-- Association-list insert-or-replace, modelling `HashMap::insert`. -/
def insertA {α : Type} : List (String × α) → String → α → List (String × α)
  | [], k, v => [(k, v)]
  | (k2, v2) :: rest, k, v =>
      if k2 = k then (k, v) :: rest else (k2, v2) :: insertA rest k v

/-- Lookup in the resolver side table `locals : HashMap<usize, usize>`. -/
def lookupN : List (Nat × Nat) → Nat → Option Nat
  | [], _ => none
  | (k2, v) :: rest, k => if k2 = k then some v else lookupN rest k

/-- Insert into the resolver side table. -/
def insertN : List (Nat × Nat) → Nat → Nat → List (Nat × Nat)
  | [], k, v => [(k, v)]
  | (k2, v2) :: rest, k, v =>
      if k2 = k then (k, v) :: rest else (k2, v2) :: insertN rest k v

/-- Embeds `Environment` (src/interpreter.rs 33-37): a mapping plus an
optional parent, the parent link being a store index. -/
structure Env where
  values : List (String × Obj)
  enclosing : Option Nat

/-- The heap of environments reachable through `Rc` handles.  Index 0 is
the globals environment. -/
abbrev Store := List Env

/-- Read an environment from the store (total; the default is never hit by
the programs considered, since references are allocation indices). -/
def storeGet (store : Store) (ref : Nat) : Env :=
  (store.get? ref).getD ⟨[], none⟩

/-- Replace an environment in the store (the effect of a `RefCell`
mutation seen through every shared handle). -/
def storeSet (store : Store) (ref : Nat) (e : Env) : Store :=
  store.set ref e

/-- Allocate a fresh environment; its reference is the old length, so all
parent links point at strictly smaller indices. -/
def allocEnv (store : Store) (e : Env) : Store × Nat :=
  (store ++ [e], store.length)

/-- Embeds `ancestor` (src/interpreter.rs 39-45).  The Rust loop calls
`.unwrap()` on the `enclosing` link, so a missing parent within `distance`
steps aborts the process; that case is `none` here. -/
def ancestor (store : Store) : Nat → Nat → Option Nat
  | ref, 0 => some ref
  | ref, d + 1 =>
    match (storeGet store ref).enclosing with
    | some p => ancestor store p d
    | none => none

/-- Embeds `get_at` (src/interpreter.rs 47-49).  `none` is the `ancestor`
panic; `some r` carries the (possibly absent) value at the target frame. -/
def getAt (store : Store) (ref distance : Nat) (name : String) :
    Option (Option Obj) :=
  (ancestor store ref distance).map fun r => lookupA (storeGet store r).values name

/-- Embeds `assign_at` (src/interpreter.rs 51-56).  `none` is the
`ancestor` panic. -/
def assignAt (store : Store) (ref distance : Nat) (name : String) (v : Obj) :
    Option Store :=
  (ancestor store ref distance).map fun r =>
    storeSet store r
      { storeGet store r with values := insertA (storeGet store r).values name v }

/-- The number of parent links above environment `ref`.  Allocation only
creates links to strictly smaller indices, so the guard is satisfied on
every reachable store; it makes the definition total. -/
def numAncestors (store : Store) (ref : Nat) : Nat :=
  match (storeGet store ref).enclosing with
  | some p => if h : p < ref then numAncestors store p + 1 else 0
  | none => 0
termination_by ref
decreasing_by exact h

/-- A single environment is well formed at index `i` when its parent link,
if any, points below `i`. -/
def envWFB (i : Nat) (e : Env) : Bool :=
  match e.enclosing with
  | some p => p < i
  | none => true

/-- Every environment of the store has a parent link pointing at a smaller
index — the invariant `allocEnv` maintains. -/
def storeWF (store : Store) : Bool :=
  (List.range store.length).all fun i => envWFB i (storeGet store i)

/- Embeds `impl PartialEq for Object` (src/types.rs 164-201).  Every arm
dispatches on the second operand's variant, yielding `false` across
variants and the component `==` within a variant.  The components use the
derived `PartialEq`: `LoxClass` compares its name, `LoxInstance` compares
its class and the contents of its (shared) fields map, and `Function`
compares name, body, params and then its captured closure environment by
contents, following `Rc`/`RefCell` through the store.  That last walk need
not terminate — a top-level function's environment contains the function
itself — so the comparison is fuel-indexed: `none` means the recursion is
still running when the fuel ends, which on the real machine is a host
stack overflow. -/
mutual
def objEqF (store : Store) : Nat → Obj → Obj → Option Bool
  | 0, _, _ => none
  | _ + 1, .num l, o =>
    some (match o with | .num r => l == r | _ => false)
  | _ + 1, .str l, o =>
    some (match o with | .str r => l == r | _ => false)
  | _ + 1, .bool l, o =>
    some (match o with | .bool r => l == r | _ => false)
  | fuel + 1, .func l, o =>
    match o with
    | .func r =>
      if l.name == r.name && stmtListBeq l.body r.body && l.params == r.params
      then envEqF store fuel l.closure r.closure
      else some false
    | _ => some false
  | _ + 1, .nativeFn l, o =>
    some (match o with | .nativeFn r => l == r | _ => false)
  | _ + 1, .classV l, o =>
    some (match o with | .classV r => l == r | _ => false)
  | fuel + 1, .instV kl fl, o =>
    match o with
    | .instV kr fr => if kl == kr then fieldsEqF store fuel fl fr else some false
    | _ => some false
  | _ + 1, .nil, o =>
    some (match o with | .nil => true | _ => false)
termination_by structural fuel _ _ => fuel

def fieldsEqF (store : Store) : Nat → List (String × Obj) → List (String × Obj) →
    Option Bool
  | 0, _, _ => none
  | fuel + 1, l, r =>
    if l.length == r.length then fieldsSubF store fuel l r else some false
termination_by structural fuel _ _ => fuel

def fieldsSubF (store : Store) : Nat → List (String × Obj) → List (String × Obj) →
    Option Bool
  | 0, _, _ => none
  | _ + 1, [], _ => some true
  | fuel + 1, (k, v) :: rest, r =>
    match lookupA r k with
    | none => some false
    | some w =>
      match objEqF store fuel v w with
      | some true => fieldsSubF store fuel rest r
      | other => other
termination_by structural fuel _ _ => fuel

def envEqF (store : Store) : Nat → Nat → Nat → Option Bool
  | 0, _, _ => none
  | fuel + 1, r1, r2 =>
    match fieldsEqF store fuel (storeGet store r1).values (storeGet store r2).values with
    | some true =>
      match (storeGet store r1).enclosing, (storeGet store r2).enclosing with
      | none, none => some true
      | some p1, some p2 => envEqF store fuel p1 p2
      | _, _ => some false
    | other => other
termination_by structural fuel _ _ => fuel
end

/-- Embeds `LoxInstance::get` (src/types.rs 115-123): only the instance's
`fields` map is consulted — `LoxClass` of types.rs carries no method table,
so no method lookup and no bound-method construction exists — and a missing
key is the `Undefined property` runtime error. -/
def instGet (fields : List (String × Obj)) (key : Token) : Option Obj × Option (String × Nat) :=
  match lookupA fields key.lexeme with
  | some v => (some v, none)
  | none => (none, some ("Undefined property " ++ key.lexeme, key.line))

/-- The interpreter state (`Interpreter`, src/interpreter.rs 101-105): the
store of environments (globals fixed at index 0), the current environment
reference and the resolver side table `locals`.  `output` logs what the
native print functions write. -/
structure St where
  store : Store
  env : Nat
  locals : List (Nat × Nat)
  output : List String

/-- The outcome of a statement or expression.  `ok` and `err` are the
`Ok`/`Err` of the Rust `Result`; `crash` is a Rust panic; `oof` is fuel
exhaustion (a model artifact). -/
inductive Out (α : Type) where
  | ok (a : α)
  | err (msg : String) (line : Nat)
  | crash
  | oof

/-- Sequencing that mirrors the `?` operator: the interpreter state lives
in `self` and therefore survives an early `Err`/panic return. -/
def eBind {α β : Type} (r : St × Out α) (f : St → α → St × Out β) : St × Out β :=
  match r with
  | (st, .ok a) => f st a
  | (st, .err m l) => (st, .err m l)
  | (st, .crash) => (st, .crash)
  | (st, .oof) => (st, .oof)

/-- Embeds `Environment::set` on the current environment (used by
`visit_var_stmt` and `visit_func_stmt`). -/
def defineVar (st : St) (k : String) (v : Obj) : St :=
  { st with
    store := storeSet st.store st.env
      { storeGet st.store st.env with
        values := insertA (storeGet st.store st.env).values k v } }

/-- Write into the globals map (the unresolved branch of `visit_assign`,
which creates the binding if absent). -/
def setGlobal (st : St) (k : String) (v : Obj) : St :=
  { st with
    store := storeSet st.store 0
      { storeGet st.store 0 with
        values := insertA (storeGet st.store 0).values k v } }

/-- Embeds `Interpreter::lookup_variable` (src/interpreter.rs 172-183): a
resolved id reads through `get_at` at the recorded depth (`crash` when the
ancestor walk panics); an unresolved id reads the globals map directly. -/
def lookupVariable (st : St) (exprId : Nat) (name : String) : Out (Option Obj) :=
  match lookupN st.locals exprId with
  | some d =>
    match getAt st.store st.env d name with
    | some r => .ok r
    | none => .crash
  | none => .ok (lookupA (storeGet st.store 0).values name)

/-- Display of runtime values (`impl fmt::Display for Object`,
src/types.rs 203-216); only the output log reads it. -/
def objDisplay : Obj → String
  | .num n => toString n
  | .str s => s
  | .bool b => toString b
  | .func _ => "<user defined> fn"
  | .nativeFn _ => "native fn"
  | .classV c => c.name
  | .instV k _ => k.name ++ " instance"
  | .nil => "nil"

/-- Space-joined rendering used by the print natives. -/
def joinSp (args : List Obj) : String :=
  String.intercalate " " (args.map objDisplay)

/-- Embeds `NativeFunc::call` (src/types.rs 44-98).  Standard input is
outside the model: `input` returns the empty string after its arity check.
`print` and `println` append their space-joined arguments to the output
log and return `Object::None`. -/
def nativeCall (st : St) (nf : NativeFunc) (name : Token) (args : List Obj) :
    St × Out Obj :=
  match nf with
  | .INPUT =>
    if args.length > 1 then
      (st, .err ("expect 0 or 1 arguments, got " ++ toString args.length) name.line)
    else (st, .ok (.str ""))
  | .PRINTLN => ({ st with output := st.output ++ [joinSp args] }, .ok .nil)
  | .PRINT => ({ st with output := st.output ++ [joinSp args] }, .ok .nil)

/-- Embeds the parameter-binding loop of `Function::call` (src/types.rs
24-28): `arguments[i]` is indexed for every `i < params.len()`, so too few
arguments are an out-of-bounds panic (`none`) and surplus arguments are
silently ignored.  There is no arity check anywhere in the function. -/
def bindParams : List Token → List Obj → List (String × Obj) →
    Option (List (String × Obj))
  | [], _, acc => some acc
  | _ :: _, [], _ => none
  | p :: ps, a :: rest, acc => bindParams ps rest (insertA acc p.lexeme a)

/-- Embeds the arithmetic/comparison/equality dispatch of `visit_binary`
(src/interpreter.rs 397-521), including the source's error messages.  The
`==`/`!=` arms call the structural `Object` equality; its divergence is a
crash (host stack overflow). -/
def binaryOp (st : St) (op : Token) (l r : Obj) (fuel : Nat) : St × Out Obj :=
  match op.tokenType with
  | .MINUS =>
    match l, r with
    | .num a, .num b => (st, .ok (.num (a - b)))
    | _, _ => (st, .err "operands must be two numbers." op.line)
  | .PLUS =>
    match l with
    | .num a =>
      match r with
      | .num b => (st, .ok (.num (a + b)))
      | _ => (st, .err "operands must be two numbers." op.line)
    | .str a =>
      match r with
      | .str b => (st, .ok (.str (a ++ b)))
      | _ => (st, .err "operands must be two strings." op.line)
    | _ => (st, .err "operands must be two numbers or two strings." op.line)
  | .STAR =>
    match l, r with
    | .num a, .num b => (st, .ok (.num (a * b)))
    | _, _ => (st, .err "operands must be two numbers." op.line)
  | .SLASH =>
    match l, r with
    | .num a, .num b => (st, .ok (.num (a / b)))
    | _, _ => (st, .err "operands must be two numbers." op.line)
  | .GREATER =>
    match l, r with
    | .num a, .num b => (st, .ok (.bool (b < a)))
    | _, _ => (st, .err "operands must be two numbers." op.line)
  | .LESS =>
    match l, r with
    | .num a, .num b => (st, .ok (.bool (a < b)))
    | _, _ => (st, .err "operands must be two numberss." op.line)
  | .GREATEREQUAL =>
    match l, r with
    | .num a, .num b => (st, .ok (.bool (b ≤ a)))
    | _, _ => (st, .err "operands must be two numbers." op.line)
  | .LESSEQUAL =>
    match l, r with
    | .num a, .num b => (st, .ok (.bool (a ≤ b)))
    | _, _ => (st, .err "operands must be two numbers." op.line)
  | .EQUALEQUAL =>
    match objEqF st.store fuel l r with
    | some b => (st, .ok (.bool b))
    | none => (st, .crash)
  | .BANGEQUAL =>
    match objEqF st.store fuel l r with
    | some b => (st, .ok (.bool (!b)))
    | none => (st, .crash)
  | _ => (st, .crash)

/- The evaluator (the `VisitorE`/`VisitorS` impls for `Interpreter`,
src/interpreter.rs 186-563, and `Function::call`, src/types.rs 18-34),
fuel-indexed to make the recursion evidently terminating. -/
mutual

def evaluate (fuel : Nat) (st : St) (e : Expr) : St × Out Obj :=
  match fuel with
  | 0 => (st, .oof)
  | fuel + 1 =>
    match e with
    | .literal _ v =>
      (st, .ok (match v with
        | .num n => .num n
        | .str s => .str s
        | .bool b => .bool b
        | .nil => .nil))
    | .grouping _ inner => evaluate fuel st inner
    | .unary _ op right =>
      eBind (evaluate fuel st right) fun st1 r =>
        match op.tokenType with
        | .MINUS =>
          match r with
          | .num n => (st1, .ok (.num (-1 * n)))
          | _ => (st1, .err "operands must be numbers." op.line)
        | .BANG => (st1, .ok (.bool (!r.isTruthy)))
        | _ => (st1, .crash)
    | .binary _ left op right =>
      eBind (evaluate fuel st left) fun st1 l =>
      eBind (evaluate fuel st1 right) fun st2 r =>
        binaryOp st2 op l r fuel
    | .var vid name =>
      match lookupVariable st vid name.lexeme with
      | .ok (some o) => (st, .ok o)
      | .ok none => (st, .err "Undefined variable." name.line)
      | .err m l => (st, .err m l)
      | .crash => (st, .crash)
      | .oof => (st, .oof)
    | .assign aid name value =>
      eBind (evaluate fuel st value) fun st1 v =>
        match lookupN st1.locals aid with
        | some d =>
          match assignAt st1.store st1.env d name.lexeme v with
          | none => (st1, .crash)
          | some store2 =>
            let st2 := { st1 with store := store2 }
            match getAt st2.store st2.env d name.lexeme with
            | some (some w) => (st2, .ok w)
            | some none => (st2, .crash)
            | none => (st2, .crash)
        | none => (setGlobal st1 name.lexeme v, .ok v)
    | .logical _ left op right =>
      eBind (evaluate fuel st left) fun st1 l =>
      eBind (evaluate fuel st1 right) fun st2 r =>
        match op.tokenType with
        | .OR => if l.isTruthy then (st2, .ok l) else (st2, .ok r)
        | .AND => if !l.isTruthy then (st2, .ok l) else (st2, .ok r)
        | _ => (st2, .crash)
    | .call _ calle paren args =>
      eBind (evaluate fuel st calle) fun st1 c =>
        match c with
        | .func f =>
          eBind (evalArgs fuel st1 args) fun st2 argv =>
            callFunction fuel st2 f argv
        | .nativeFn nf =>
          eBind (evalArgs fuel st1 args) fun st2 argv =>
            nativeCall st2 nf paren argv
        | .classV c2 =>
          eBind (evalArgs fuel st1 args) fun st2 _argv =>
            (st2, .ok (.instV c2 []))
        | _ => (st1, .err "Can only call functions and classes." paren.line)
    | .get _ objE name =>
      eBind (evaluate fuel st objE) fun st1 o =>
        match o with
        | .instV _ fields =>
          match instGet fields name with
          | (some v, _) => (st1, .ok v)
          | (none, some (m, l)) => (st1, .err m l)
          | (none, none) => (st1, .crash)
        | _ => (st1, .err "Only instances have properties." name.line)
termination_by structural fuel

def evalArgs (fuel : Nat) (st : St) (args : List Expr) : St × Out (List Obj) :=
  match fuel with
  | 0 => (st, .oof)
  | fuel + 1 =>
    match args with
    | [] => (st, .ok [])
    | a :: rest =>
      eBind (evaluate fuel st a) fun st1 v =>
      eBind (evalArgs fuel st1 rest) fun st2 vs =>
        (st2, .ok (v :: vs))
termination_by structural fuel

def callFunction (fuel : Nat) (st : St) (f : Function) (args : List Obj) :
    St × Out Obj :=
  match fuel with
  | 0 => (st, .oof)
  | fuel + 1 =>
    match bindParams f.params args [] with
    | none => (st, .crash)
    | some vals =>
      let (store1, envRef) := allocEnv st.store ⟨vals, some f.closure⟩
      match executeBlock fuel { st with store := store1 } f.body envRef with
      | (st2, .ok (some v)) => (st2, .ok v)
      | (st2, .ok none) => (st2, .ok .nil)
      | (st2, .err m l) => (st2, .err m l)
      | (st2, .crash) => (st2, .crash)
      | (st2, .oof) => (st2, .oof)
termination_by structural fuel

def executeBlock (fuel : Nat) (st : St) (stmts : List Stmt) (envRef : Nat) :
    St × Out (Option Obj) :=
  match fuel with
  | 0 => (st, .oof)
  | fuel + 1 =>
    let prev := st.env
    blockLoop fuel { st with env := envRef } stmts prev
termination_by structural fuel

def blockLoop (fuel : Nat) (st : St) (stmts : List Stmt) (prev : Nat) :
    St × Out (Option Obj) :=
  match fuel with
  | 0 => (st, .oof)
  | fuel + 1 =>
    match stmts with
    | [] => ({ st with env := prev }, .ok none)
    | s :: rest =>
      match execute fuel st s with
      | (st1, .ok (some r)) => ({ st1 with env := prev }, .ok (some r))
      | (st1, .ok none) => blockLoop fuel st1 rest prev
      | (st1, .err m l) => (st1, .err m l)
      | (st1, .crash) => (st1, .crash)
      | (st1, .oof) => (st1, .oof)
termination_by structural fuel

def execute (fuel : Nat) (st : St) (s : Stmt) : St × Out (Option Obj) :=
  match fuel with
  | 0 => (st, .oof)
  | fuel + 1 =>
    match s with
    | .exprStmt e =>
      eBind (evaluate fuel st e) fun st1 _ => (st1, .ok none)
    | .varDecl name initOpt =>
      match initOpt with
      | some e =>
        eBind (evaluate fuel st e) fun st1 v => (defineVar st1 name.lexeme v, .ok none)
      | none => (defineVar st name.lexeme .nil, .ok none)
    | .block stmts =>
      let (store1, envRef) := allocEnv st.store ⟨[], some st.env⟩
      executeBlock fuel { st with store := store1 } stmts envRef
    | .ifS cond thenB elseB =>
      eBind (evaluate fuel st cond) fun st1 c =>
        if c.isTruthy then execute fuel st1 thenB
        else
          match elseB with
          | some e => execute fuel st1 e
          | none => (st1, .ok none)
    | .whileS cond body =>
      eBind (evaluate fuel st cond) fun st1 c =>
        if c.isTruthy then
          match execute fuel st1 body with
          | (st2, .ok (some r)) => (st2, .ok (some r))
          | (st2, .ok none) => execute fuel st2 (.whileS cond body)
          | (st2, .err m l) => (st2, .err m l)
          | (st2, .crash) => (st2, .crash)
          | (st2, .oof) => (st2, .oof)
        else (st1, .ok none)
    | .func name params body =>
      (defineVar st name.lexeme (.func ⟨name.lexeme, body, params, st.env⟩), .ok none)
    | .ret _ value =>
      match value with
      | some e => eBind (evaluate fuel st e) fun st1 v => (st1, .ok (some v))
      | none => (st, .ok (some .nil))
termination_by structural fuel

end

/-- The overall outcome of a program run. -/
inductive RunOut where
  | finished
  | erred (msg : String) (line : Nat)
  | crashed
  | fuelOut
  deriving DecidableEq, Repr

/-- Embeds `Interpreter::interpret` (src/interpreter.rs 160-170):
statements run in order; the first runtime error is printed and the loop
breaks.  A propagating top-level return value is matched by `Ok(_)` and
ignored. -/
def interpret (fuel : Nat) (st : St) : List Stmt → St × RunOut
  | [] => (st, .finished)
  | s :: rest =>
    match execute fuel st s with
    | (st1, .ok _) => interpret fuel st1 rest
    | (st1, .err m l) => (st1, .erred m l)
    | (st1, .crash) => (st1, .crashed)
    | (st1, .oof) => (st1, .fuelOut)

/-- Embeds `Interpreter::new` (src/interpreter.rs 108-126): the globals
environment at store index 0 holds the three natives, and it is the
current environment. -/
def initSt (locals : List (Nat × Nat)) : St :=
  { store := [⟨[("input", .nativeFn .INPUT), ("println", .nativeFn .PRINTLN),
               ("print", .nativeFn .PRINT)], none⟩],
    env := 0, locals := locals, output := [] }

/-- Resolver function context (src/resolver.rs 12-16); the source has only
these two variants. -/
inductive FunctionType where
  | FUNCTION
  | NONE
  deriving DecidableEq, Repr

/-- The resolver state (`Resolver`, src/resolver.rs 18-22): the scope
stack (a `Vec`, innermost scope last), the interpreter side table it
writes through `Interpreter::resolve`, and the current function context.
`errors` records what `eprintln!` reported (message and line). -/
structure RState where
  scopes : List (List (String × Bool))
  locals : List (Nat × Nat)
  errors : List (String × Nat)
  currentFunction : FunctionType
  deriving Repr

/-- The resolver the driver builds: empty scope stack, NONE context
(src/main.rs 23, `Resolver::new(Vec::new(), ...)`). -/
def initR : RState := ⟨[], [], [], .NONE⟩

/-- Embeds `begin_scope` (src/resolver.rs 33-35). -/
def beginScope (rs : RState) : RState :=
  { rs with scopes := rs.scopes ++ [[]] }

/-- Embeds `end_scope` (src/resolver.rs 37-39). -/
def endScope (rs : RState) : RState :=
  { rs with scopes := rs.scopes.dropLast }

/-- Embeds `Resolver::declare` (src/resolver.rs 41-60): a no-op at global
scope; a duplicate in the innermost scope is reported and stops this
statement's resolution; otherwise the name is inserted as `false`. -/
def declare (rs : RState) (name : Token) : RState × Option Unit :=
  match rs.scopes.getLast? with
  | none => (rs, some ())
  | some scope =>
    match lookupA scope name.lexeme with
    | some _ =>
      ({ rs with errors := rs.errors ++
          [("Already a variable with this name in this scope.", name.line)] }, none)
    | none =>
      ({ rs with scopes := rs.scopes.dropLast ++ [insertA scope name.lexeme false] },
       some ())

/-- Embeds `Resolver::define` (src/resolver.rs 62-73): inserts `true` into
the innermost scope (always succeeds). -/
def defineName (rs : RState) (name : Token) : RState :=
  match rs.scopes.getLast? with
  | none => rs
  | some scope =>
    { rs with scopes := rs.scopes.dropLast ++ [insertA scope name.lexeme true] }

/-- The scan of `resolve_local`: walk `i` from `scopes.len() - 1` down to 0
and return the first index whose scope contains the name. -/
def findInnermost (scopes : List (List (String × Bool))) (name : String) :
    Nat → Option Nat
  | 0 => none
  | i + 1 =>
    if (lookupA ((scopes.get? i).getD []) name).isSome then some i
    else findInnermost scopes name i

/-- Embeds `Resolver::resolve_local` (src/resolver.rs 110-117): when the
name is found at scope index `i`, the recorded depth is the source's
`self.scopes.len() - 1 + i`. -/
def resolveLocal (rs : RState) (exprId : Nat) (name : String) : RState :=
  match findInnermost rs.scopes name rs.scopes.length with
  | some i =>
    { rs with locals := insertN rs.locals exprId (rs.scopes.length - 1 + i) }
  | none => rs

/-- The outcome of one resolver visit: `done` is the Rust `Some(())`,
`stop` the Rust `None` (an error was reported and the `?` operator
propagates), and `roof` is fuel exhaustion (a model artifact; the concrete
theorems below always supply ample fuel). -/
inductive ROut where
  | done
  | stop
  | roof
  deriving DecidableEq, Repr

/- Embeds the resolver's expression visitor (`impl VisitorE` for
`Resolver`, src/resolver.rs 120-189), fuel-indexed. -/
mutual
def resolveExpr (fuel : Nat) (rs : RState) (e : Expr) : RState × ROut :=
  match fuel with
  | 0 => (rs, .roof)
  | fuel + 1 =>
    match e with
    | .literal _ _ => (rs, .done)
    | .grouping _ inner => resolveExpr fuel rs inner
    | .unary _ _ right => resolveExpr fuel rs right
    | .binary _ l _ r =>
      match resolveExpr fuel rs l with
      | (rs1, .done) => resolveExpr fuel rs1 r
      | other => other
    | .logical _ l _ r =>
      match resolveExpr fuel rs l with
      | (rs1, .done) => resolveExpr fuel rs1 r
      | other => other
    | .var vid name =>
      match rs.scopes.getLast? with
      | some scope =>
        if lookupA scope name.lexeme = some false then
          ({ rs with errors := rs.errors ++
              [("Can't read local variable in its own initializer.", name.line)] },
           .stop)
        else (resolveLocal rs vid name.lexeme, .done)
      | none => (resolveLocal rs vid name.lexeme, .done)
    | .assign aid name value =>
      match resolveExpr fuel rs value with
      | (rs1, .done) => (resolveLocal rs1 aid name.lexeme, .done)
      | other => other
    | .call _ calle _ args =>
      match resolveExpr fuel rs calle with
      | (rs1, .done) => resolveExprList fuel rs1 args
      | other => other
    | .get _ objE _ =>
      ((resolveExpr fuel rs objE).1, .done)
termination_by structural fuel

def resolveExprList (fuel : Nat) (rs : RState) (es : List Expr) : RState × ROut :=
  match fuel with
  | 0 => (rs, .roof)
  | fuel + 1 =>
    match es with
    | [] => (rs, .done)
    | e :: rest =>
      match resolveExpr fuel rs e with
      | (rs1, .done) => resolveExprList fuel rs1 rest
      | other => other
termination_by structural fuel
end

/-- The declare-then-define loop over parameters inside `resolve_fun`
(src/resolver.rs 97-100). -/
def declareParams (rs : RState) (params : List Token) : RState × ROut :=
  match params with
  | [] => (rs, .done)
  | p :: rest =>
    match declare rs p with
    | (rs1, some _) => declareParams (defineName rs1 p) rest
    | (rs1, none) => (rs1, .stop)

/- Embeds the resolver's statement visitor (`impl VisitorS` for
`Resolver`, src/resolver.rs 191-253), `resolve_fun` (93-108) and
`resolve_stmts` (75-81).  `resolve_stmt` (83-86) runs the visitor,
DISCARDS its result and returns `Some(())`, so the `?` in `resolve_stmts`
and in the `If`/`While` arms never stops resolution; that discard is
inlined at each call site below. -/
mutual
def stmtVisit (fuel : Nat) (rs : RState) (s : Stmt) : RState × ROut :=
  match fuel with
  | 0 => (rs, .roof)
  | fuel + 1 =>
    match s with
    | .exprStmt e => resolveExpr fuel rs e
    | .varDecl name _initOpt =>
      match declare rs name with
      | (rs1, some _) => (defineName rs1 name, .done)
      | (rs1, none) => (rs1, .stop)
    | .block stmts =>
      match resolveStmts fuel (beginScope rs) stmts with
      | (rs1, .done) => (endScope rs1, .done)
      | other => other
    | .ifS cond thenB elseB =>
      match resolveExpr fuel rs cond with
      | (rs1, .done) =>
        let rs2 := (stmtVisit fuel rs1 thenB).1
        match elseB with
        | some e => ((stmtVisit fuel rs2 e).1, .done)
        | none => (rs2, .done)
      | other => other
    | .whileS cond body =>
      match resolveExpr fuel rs cond with
      | (rs1, .done) => ((stmtVisit fuel rs1 body).1, .done)
      | other => other
    | .func name params body =>
      match declare rs name with
      | (rs1, some _) => resolveFun fuel (defineName rs1 name) params body .FUNCTION
      | (rs1, none) => (rs1, .stop)
    | .ret keyword value =>
      match rs.currentFunction with
      | .NONE =>
        ({ rs with errors := rs.errors ++
            [("Can't return from top-level code.", keyword.line)] }, .stop)
      | .FUNCTION =>
        match value with
        | some e =>
          match resolveExpr fuel rs e with
          | (rs1, .done) => (rs1, .done)
          | other => other
        | none => (rs, .done)
termination_by structural fuel

def resolveFun (fuel : Nat) (rs : RState) (params : List Token)
    (body : List Stmt) (t : FunctionType) : RState × ROut :=
  match fuel with
  | 0 => (rs, .roof)
  | fuel + 1 =>
    let enclosing := rs.currentFunction
    let rs1 := beginScope { rs with currentFunction := t }
    match declareParams rs1 params with
    | (rs2, .done) =>
      match resolveStmts fuel rs2 body with
      | (rs3, .done) =>
        ({ endScope rs3 with currentFunction := enclosing }, .done)
      | other => other
    | other => other
termination_by structural fuel

def resolveStmts (fuel : Nat) (rs : RState) (stmts : List Stmt) : RState × ROut :=
  match fuel with
  | 0 => (rs, .roof)
  | fuel + 1 =>
    match stmts with
    | [] => (rs, .done)
    | s :: rest =>
      let rs1 := (stmtVisit fuel rs s).1
      resolveStmts fuel rs1 rest
termination_by structural fuel
end

/-- Embeds the resolve-then-interpret part of `run` (src/main.rs 17-31):
the result of `resolver.resolve_stmts(&mut e)` is discarded and
`interpreter.interpret(e)` runs unconditionally; `run` then returns
normally (process exit code 0) whatever the resolver reported. -/
def runPipeline (fuel : Nat) (stmts : List Stmt) : RState × St × RunOut :=
  let rsFinal := (resolveStmts fuel initR stmts).1
  let (stFinal, out) := interpret fuel (initSt rsFinal.locals) stmts
  (rsFinal, stFinal, out)

/-! Concrete programs and states used to settle the claims. -/

/-- An identifier token on line 1. -/
def identT (s : String) : Token := ⟨.IDENTIFIER, 1, s⟩

/-- A closing-paren token on line 1. -/
def parenT : Token := ⟨.RIGHTPAREN, 1, ""⟩

/-- The program `{ { var b = 2; b; } }`: the reference `b` (id 1) sits in
the innermost of two nested scopes, exactly where the recorded depth and
the parent-link distance diverge. -/
def progC1 : List Stmt :=
  [.block [.block [.varDecl (identT "b") (some (.literal 0 (.num 2))),
                   .exprStmt (.var 1 (identT "b"))]]]

/-- The program `{ var a = 1; var b = a; }`: the reference `a` (id 7)
occurs inside the initializer of `b`. -/
def progC2 : List Stmt :=
  [.block [.varDecl (identT "a") (some (.literal 5 (.num 1))),
           .varDecl (identT "b") (some (.var 7 (identT "a")))]]

/-- The program `fun f(a) { x = 99; } f(1, 2);`: a call with two arguments
to a one-parameter function whose body is observable through the global
`x`. -/
def progC3a : List Stmt :=
  [.func (identT "f") [identT "a"]
     [.exprStmt (.assign 10 (identT "x") (.literal 11 (.num 99)))],
   .exprStmt (.call 12 (.var 13 (identT "f")) parenT
     [.literal 14 (.num 1), .literal 15 (.num 2)])]

/-- The program `fun f(a) { x = 99; } f();`: a call with too few
arguments. -/
def progC3b : List Stmt :=
  [.func (identT "f") [identT "a"]
     [.exprStmt (.assign 10 (identT "x") (.literal 11 (.num 99)))],
   .exprStmt (.call 12 (.var 13 (identT "f")) parenT [])]

/-- A state whose globals hold `c`, an instance of class `C` with no
fields; the class declares nothing findable, since the types.rs class
handle has no method slot at all. -/
def stC4 : St :=
  { store := [⟨[("c", .instV ⟨"C"⟩ [])], none⟩], env := 0, locals := [],
    output := [] }

/-- The program `var x = 0; true or (x = 1); var y = 0; false and (y = 1);`:
both right-hand operands carry an observable assignment that short-circuit
evaluation would skip. -/
def progC5 : List Stmt :=
  [.varDecl (identT "x") (some (.literal 20 (.num 0))),
   .exprStmt (.logical 21 (.literal 22 (.bool true)) ⟨.OR, 1, ""⟩
     (.assign 23 (identT "x") (.literal 24 (.num 1)))),
   .varDecl (identT "y") (some (.literal 25 (.num 0))),
   .exprStmt (.logical 26 (.literal 27 (.bool false)) ⟨.AND, 1, ""⟩
     (.assign 28 (identT "y") (.literal 29 (.num 1))))]

/-- The program `{ y; }` with `y` undefined: the statement inside the
block raises a runtime error. -/
def progC6 : List Stmt := [.block [.exprStmt (.var 30 (identT "y"))]]

/-- The program `return 1; var x = 5;`: a top-level return is a resolver
error, followed by an observable declaration. -/
def progC7 : List Stmt :=
  [.ret ⟨.RETURN, 1, "return"⟩ (some (.literal 40 (.num 1))),
   .varDecl (identT "x") (some (.literal 41 (.num 5)))]

/-- A function value as `visit_func_stmt` builds it for `fun f() {}` at
top level: closure = globals. -/
def fObj : Obj := .func ⟨"f", [], [], 0⟩

/-- The globals store after executing `fun f() {}`: the environment holds
`f`, whose closure is that same environment — the routine reference
cycle. -/
def storeC8 : Store := [⟨[("f", fObj)], none⟩]

/-- The statement `return 1;` (inside a function body). -/
def retOne : Stmt := .ret (identT "return") (some (.literal 60 (.num 1)))

/-- A state whose side table maps expression id 5 to depth 3 while the
current environment (the globals root) has no ancestors. -/
def stC10 : St :=
  { store := [⟨[], none⟩], env := 0, locals := [(5, 3)], output := [] }

/-! Settling the claims. -/

/-- C1: the claim states that the recorded depth for a reference to a name
bound by an enclosing non-global scope equals the number of parent links
to the defining scope (`innermost_index - i`).  It fails: for
`{ { var b = 2; b; } }` the defining scope is the reference's own
environment (0 parent links), yet `resolve_local` records
`scopes.len() - 1 + i = 2` for expression id 1, and the evaluator's
2-parent walk lands in the globals and reports `Undefined variable`;
with the depth 0 the claim mandates, the same program runs to
completion. -/
theorem c1_resolve_local_depth_code_bug :
    (resolveStmts 64 initR progC1).1.locals = [(1, 2)] ∧
    (runPipeline 64 progC1).2.2 = .erred "Undefined variable." 1 ∧
    (interpret 64 (initSt [(1, 0)]) progC1).2 = .finished :=
  ⟨rfl, rfl, rfl⟩

/-- C2: the claim states that `visit_var_stmt` resolves the initializer
between declaring and defining the name.  It fails: the source's
`visit_var_stmt` is only `declare(...)?; define(...)`, so for
`{ var a = 1; var b = a; }` the reference `a` (id 7) gets no depth entry
(the side table stays empty), the runtime lookup falls through to the
globals and reports `Undefined variable`; with the entry `(7, 0)` that
resolving the initializer would have produced, the program runs to
completion and `b` holds 1. -/
theorem c2_var_stmt_skips_init_resolution :
    (resolveStmts 64 initR progC2).1.locals = [] ∧
    (runPipeline 64 progC2).2.2 = .erred "Undefined variable." 1 ∧
    (interpret 64 (initSt [(7, 0)]) progC2).2 = .finished ∧
    lookupA (storeGet (interpret 64 (initSt [(7, 0)]) progC2).1.store 1).values "b"
      = some (.num 1) :=
  ⟨rfl, rfl, rfl, rfl⟩

/-- C3: the claim states that a user-function call with a wrong argument
count yields an arity error and the body does not run.  It fails:
`Function::call` (types.rs 18-34) has no arity check — calling the
one-parameter `f` with two arguments runs the body to completion (the
global `x` becomes 99), and calling it with no arguments panics on the
out-of-bounds `arguments[0]` instead of reporting an arity error. -/
theorem c3_no_arity_check :
    (runPipeline 64 progC3a).2.2 = .finished ∧
    lookupA (storeGet (runPipeline 64 progC3a).2.1.store 0).values "x"
      = some (.num 99) ∧
    (runPipeline 64 progC3b).2.2 = .crashed :=
  ⟨rfl, rfl, rfl⟩

/-- C4: the claim states that a property access on an instance falls back
to the class method table and returns a bound method before reporting
`UndefinedProperty`.  It fails: `LoxInstance::get` (types.rs 115-123)
consults only the fields map — the types.rs class handle carries no method
table, so a field miss is always the `Undefined property` error, as the
evaluation of `c.m` on a fresh instance shows; a present field is
returned. -/
theorem c4_property_get_fields_only :
    instGet [] (identT "m") = (none, some ("Undefined property m", 1)) ∧
    instGet [("m", .num 7)] (identT "m") = (some (.num 7), none) ∧
    evaluate 8 stC4 (.get 1 (.var 2 (identT "c")) (identT "m"))
      = (stC4, .err "Undefined property m" 1) :=
  ⟨rfl, rfl, rfl⟩

/-- C5: the claim states that `a or b` evaluates `b` only when `a` is
falsey and `a and b` only when `a` is truthy.  It fails: `visit_logical`
(interpreter.rs 366-385) evaluates both operands before inspecting the
operator, so after `true or (x = 1)` the global `x` is 1 and after
`false and (y = 1)` the global `y` is 1 — the side effects the claim says
must not be observed. -/
theorem c5_logical_no_short_circuit :
    (runPipeline 64 progC5).2.2 = .finished ∧
    lookupA (storeGet (runPipeline 64 progC5).2.1.store 0).values "x"
      = some (.num 1) ∧
    lookupA (storeGet (runPipeline 64 progC5).2.1.store 0).values "y"
      = some (.num 1) :=
  ⟨rfl, rfl, rfl⟩

/-- C6: the claim states that a block restores the previous environment on
every exit path, including a runtime error.  It fails on the error path:
in `execute_block` (interpreter.rs 140-158) the `?` on `self.execute(stmt)`
propagates the error before `self.env = prev` runs, so after `{ y; }`
errors on the undefined `y`, the interpreter's current environment is the
block child (store index 1), not the globals (index 0) it started from. -/
theorem c6_block_env_not_restored_on_error :
    (runPipeline 64 progC6).2.1.env = 1 ∧
    (initSt []).env = 0 ∧
    (runPipeline 64 progC6).2.2 = .erred "Undefined variable." 1 ∧
    (1 : Nat) ≠ 0 :=
  ⟨rfl, rfl, rfl, by decide⟩

/-- C7: the claim states that a resolver error halts the pipeline with a
non-zero exit and nothing is evaluated.  It fails: `resolve_stmt`
(resolver.rs 83-86) discards the visitor's result, and `run` (main.rs
22-25) discards the result of `resolve_stmts` and calls `interpret`
unconditionally, so `return 1; var x = 5;` reports the top-level-return
error yet still evaluates every statement (the global `x` ends up 5) and
`run` returns normally — process exit code 0. -/
theorem c7_resolver_errors_do_not_halt :
    (runPipeline 64 progC7).1.errors = [("Can't return from top-level code.", 1)] ∧
    (runPipeline 64 progC7).2.2 = .finished ∧
    lookupA (storeGet (runPipeline 64 progC7).2.1.store 0).values "x"
      = some (.num 5) :=
  ⟨rfl, rfl, rfl⟩

/-- On the self-referential store of `fun f() {}`, the structural `Object`
comparison of `f` with itself is still running at every fuel: the derived
equality walks into the closure environment, finds `f` again and
recurses. -/
lemma objEq_cycle (fuel : Nat) :
    objEqF storeC8 fuel fObj fObj = none ∧
    envEqF storeC8 fuel 0 0 = none ∧
    fieldsEqF storeC8 fuel [("f", fObj)] [("f", fObj)] = none ∧
    fieldsSubF storeC8 fuel [("f", fObj)] [("f", fObj)] = none := by
  induction fuel with
  | zero => exact ⟨rfl, rfl, rfl, rfl⟩
  | succ n ih =>
    obtain ⟨h1, h2, h3, h4⟩ := ih
    refine ⟨h2, ?_, h4, ?_⟩
    · have ev : (storeGet storeC8 0).values = [("f", fObj)] := rfl
      simp only [envEqF, ev, h3]
    · simp [fieldsSubF, lookupA, h1]

/-- C8: the claim states that `Function`, `Class`, `Instance` and
`NativeFunction` values compare by handle identity, so structurally-alike
but distinct values are not equal, and that `==` never produces a runtime
error.  It fails: `impl PartialEq for Object` (types.rs 164-201) delegates
to the derived structural equality of each handle, so two separately
constructed classes named `A` compare equal, as do two distinct empty
instances of `A` (cross-variant comparison does yield `false`); moreover,
comparing a top-level function with itself recurses for ever through its
own closure — at every fuel the comparison is unfinished, which on the
real machine is a host-stack-overflow abort rather than a result. -/
theorem c8_equality_structural_not_identity :
    objEqF [] 8 (.classV ⟨"A"⟩) (.classV ⟨"A"⟩) = some true ∧
    objEqF [] 8 (.instV ⟨"A"⟩ []) (.instV ⟨"A"⟩ []) = some true ∧
    objEqF [] 8 (.num 1) (.str "1") = some false ∧
    (∀ fuel, objEqF storeC8 fuel fObj fObj = none) :=
  ⟨rfl, rfl, rfl, fun fuel => (objEq_cycle fuel).1⟩

/-- C9: inside nested `Block`/`If`/`While` frames a propagating
`Ok(Some(v))` is passed on immediately.  The block loop stops before the
remaining statements `rest` and restores the previous environment; a while
whose body returns performs no further iteration; an if propagates its
branch's return unchanged.  The first return encountered wins because the
statements after it are never visited. -/
theorem c9_return_propagation
    (fuel : Nat) (st st1 st2 : St) (prev : Nat) (s : Stmt) (rest : List Stmt)
    (cond : Expr) (body : Stmt) (elseB : Option Stmt) (c v : Obj) :
    (execute fuel st s = (st1, .ok (some v)) →
      blockLoop (fuel + 1) st (s :: rest) prev =
        ({ st1 with env := prev }, .ok (some v))) ∧
    (evaluate fuel st cond = (st1, .ok c) → c.isTruthy = true →
      execute fuel st1 body = (st2, .ok (some v)) →
      execute (fuel + 1) st (.whileS cond body) = (st2, .ok (some v))) ∧
    (evaluate fuel st cond = (st1, .ok c) → c.isTruthy = true →
      execute fuel st1 body = (st2, .ok (some v)) →
      execute (fuel + 1) st (.ifS cond body elseB) = (st2, .ok (some v))) := by
  refine ⟨fun h => ?_, fun h1 h2 h3 => ?_, fun h1 h2 h3 => ?_⟩
  · simp only [blockLoop, h]
  · simp only [execute, h1, eBind, h2, if_true, h3]
  · simp only [execute, h1, eBind, h2, if_true, h3]

/-- Witness for C9: a body `return 1;` propagates out of a block (skipping
a trailing assignment), out of a `while true`, and out of an `if true`. -/
theorem c9_return_propagation_witness :
    blockLoop 9 (initSt [])
      [retOne, .exprStmt (.assign 61 (identT "z") (.literal 62 (.num 9)))] 0
      = ({ initSt [] with env := 0 }, .ok (some (.num 1))) ∧
    execute 9 (initSt []) (.whileS (.literal 63 (.bool true)) retOne)
      = (initSt [], .ok (some (.num 1))) ∧
    execute 9 (initSt []) (.ifS (.literal 63 (.bool true)) retOne none)
      = (initSt [], .ok (some (.num 1))) := by
  have H := c9_return_propagation 8 (initSt []) (initSt []) (initSt []) 0 retOne
    [.exprStmt (.assign 61 (identT "z") (.literal 62 (.num 9)))]
    (.literal 63 (.bool true)) retOne none (.bool true) (.num 1)
  exact ⟨H.1 rfl, H.2.1 rfl rfl rfl, H.2.2 rfl rfl rfl⟩

/-- On a well-formed store a parent link always points below its own
index. -/
lemma storeWF_parent {store : Store} (hwf : storeWF store = true) {ref p : Nat}
    (h : (storeGet store ref).enclosing = some p) : p < ref := by
  by_cases hlen : ref < store.length
  · have hall := List.all_eq_true.mp hwf ref (List.mem_range.mpr hlen)
    unfold envWFB at hall
    rw [h] at hall
    exact of_decide_eq_true hall
  · exfalso
    have hg : store.get? ref = none := by
      rw [List.get?_eq_none]
      omega
    have : storeGet store ref = ⟨[], none⟩ := by
      unfold storeGet
      rw [hg]
      rfl
    rw [this] at h
    cases h

/-- Unfolding `numAncestors` across a parent link. -/
lemma numAncestors_parent {store : Store} {ref p : Nat}
    (h : (storeGet store ref).enclosing = some p) (hp : p < ref) :
    numAncestors store ref = numAncestors store p + 1 := by
  rw [numAncestors]
  rw [h]
  simp [hp]

/-- An environment without a parent has no ancestors. -/
lemma numAncestors_root {store : Store} {ref : Nat}
    (h : (storeGet store ref).enclosing = none) :
    numAncestors store ref = 0 := by
  rw [numAncestors]
  rw [h]

/-- Walking strictly more parent links than exist hits the missing link:
`ancestor` comes back with `none` — the unwrap panic. -/
lemma ancestor_eq_none {store : Store} (hwf : storeWF store = true) :
    ∀ d ref, numAncestors store ref < d → ancestor store ref d = none := by
  intro d
  induction d with
  | zero => intro ref h; omega
  | succ n ih =>
    intro ref h
    rw [ancestor]
    cases henc : (storeGet store ref).enclosing with
    | none => rfl
    | some p =>
      have hp := storeWF_parent hwf henc
      have hnum := numAncestors_parent henc hp
      exact ih p (by omega)

/-- Walking at most as many parent links as exist succeeds. -/
lemma ancestor_isSome {store : Store} (hwf : storeWF store = true) :
    ∀ d ref, d ≤ numAncestors store ref → ∃ r, ancestor store ref d = some r := by
  intro d
  induction d with
  | zero => intro ref _; exact ⟨ref, rfl⟩
  | succ n ih =>
    intro ref h
    cases henc : (storeGet store ref).enclosing with
    | none =>
      exfalso
      have := numAncestors_root henc
      omega
    | some p =>
      have hp := storeWF_parent hwf henc
      have hnum := numAncestors_parent henc hp
      obtain ⟨r, hr⟩ := ih p (by omega)
      refine ⟨r, ?_⟩
      rw [ancestor, henc]
      exact hr

/-- C10: resolved-depth lookups are not total.  For a `Variable` or
`Assign` expression whose recorded depth `d` exceeds the number of
ancestors of the current environment, the `ancestor` walk unwraps a
missing parent link and the interpreter panics (`crash`) instead of
reporting `UndefinedVariable`; a runtime error arises only when the chain
is long enough (`d` within the ancestors) but the name is absent at the
target frame. -/
theorem c10_depth_lookup_partiality
    (fuel : Nat) (st : St) (vid litId : Nat) (name : Token) (d : Nat) (lit : LitVal)
    (hWF : storeWF st.store = true)
    (hd : lookupN st.locals vid = some d) :
    (numAncestors st.store st.env < d →
      evaluate (fuel + 1) st (.var vid name) = (st, .crash)) ∧
    (d ≤ numAncestors st.store st.env →
      ∃ r, ancestor st.store st.env d = some r ∧
        (lookupA (storeGet st.store r).values name.lexeme = none →
          evaluate (fuel + 1) st (.var vid name) =
            (st, .err "Undefined variable." name.line))) ∧
    (numAncestors st.store st.env < d →
      evaluate (fuel + 2) st (.assign vid name (.literal litId lit)) = (st, .crash)) := by
  refine ⟨fun h => ?_, fun h => ?_, fun h => ?_⟩
  · have hanc := ancestor_eq_none hWF d st.env h
    simp only [evaluate, lookupVariable, hd, getAt, hanc, Option.map_none']
  · obtain ⟨r, hr⟩ := ancestor_isSome hWF d st.env h
    refine ⟨r, hr, fun habs => ?_⟩
    simp only [evaluate, lookupVariable, hd, getAt, hr, Option.map_some', habs]
  · have hanc := ancestor_eq_none hWF d st.env h
    simp only [evaluate, eBind, hd, assignAt, hanc, Option.map_none']

/-- Witness for C10: with id 5 resolved to depth 3 while the current
environment is the parentless globals root, both the variable read and the
assignment crash. -/
theorem c10_depth_lookup_partiality_witness :
    storeWF stC10.store = true ∧
    lookupN stC10.locals 5 = some 3 ∧
    numAncestors stC10.store stC10.env < 3 ∧
    evaluate 1 stC10 (.var 5 (identT "q")) = (stC10, .crash) ∧
    evaluate 2 stC10 (.assign 5 (identT "q") (.literal 77 .nil)) = (stC10, .crash) := by
  have hn : numAncestors stC10.store stC10.env < 3 := by
    have : numAncestors stC10.store stC10.env = 0 := numAncestors_root rfl
    omega
  have H := c10_depth_lookup_partiality 0 stC10 5 77 (identT "q") 3 .nil rfl rfl
  exact ⟨rfl, rfl, hn, H.1 hn, H.2.2 hn⟩

end Rlox


